import Mathlib

/-!
# leetcode-tools: `pkg/graphql-api-service`

A shallow embedding of the stateful client of the package (`cache.go`,
`service.go`, `client.go`, `model.go`) and theorems about it.

Conventions of the embedding.

* `time.Time` is an integer number of nanoseconds counted from the zero
  `time.Time`; `time.Duration` is an integer number of nanoseconds.
  `Before` and `After` are the strict orders, `Add` is addition.
* A Go `map[K]V` is an association list (`GoMap`); a read finds the first
  pair with the key, and the writes keep the keys of a map distinct.  The
  order of the list stands for the order in which a `range` loop happens to
  visit the map.  Where the code tests a map against `nil` (the two index
  maps of `Client`) the field is an `Option`.
* What `time.Now()` returns is a parameter `now` of the operation.  The
  sweep of the cache reads the clock once per visited key; all these reads
  have the one value `now`.
* `encoding/json` and the injected transport are parameters (`Json`,
  `httpClient`).
* The mutex of `cache` is taken and released inside every method, so it is
  not part of the state.  The `sync.RWMutex` of `Client` is represented by
  the number of read locks held, because `refreshTitleSlugMaps` does not
  release its read lock on every path.
-/

namespace GraphqlApiService

/-! ## Go maps -/

/-- A Go map, as an association list. -/
abbrev GoMap (K V : Type) := List (K × V)

namespace GoMap

variable {K V : Type} [DecidableEq K]

/-- The value stored under `k`, when there is one. -/
def find : GoMap K V → K → Option V
  | [], _ => none
  | (k', v) :: m, k => if k' = k then some v else find m k

/-- The form `v, ok := m[k]`: the zero value and `false` for a missing key. -/
def index [Inhabited V] (m : GoMap K V) (k : K) : V × Bool :=
  match find m k with
  | some v => (v, true)
  | none => (default, false)

/-- The builtin `delete(m, k)`. -/
def delete : GoMap K V → K → GoMap K V
  | [], _ => []
  | (k', v) :: m, k => if k' = k then delete m k else (k', v) :: delete m k

/-- The assignment `m[k] = v`: overwrites the value of an existing key,
adds the key otherwise. -/
def set : GoMap K V → K → V → GoMap K V
  | [], k, v => [(k, v)]
  | (k', v') :: m, k, v => if k' = k then (k, v) :: m else (k', v') :: set m k v

/-- The keys a `range` loop visits. -/
def keys (m : GoMap K V) : List K :=
  m.map Prod.fst

/-- The builtin `len(m)`. -/
def len (m : GoMap K V) : Nat :=
  m.length

end GoMap

/-! ## model.go: the domain model -/

/-- Go `Parameter`. -/
structure Parameter where
  Name : String
  «Type» : String
  deriving DecidableEq, Repr

instance : Inhabited Parameter := ⟨{ Name := "", «Type» := "" }⟩

/-- Go `MetaData`. -/
structure MetaData where
  FunctionName : String
  InputParameters : List Parameter
  ReturnParameter : Parameter
  deriving DecidableEq, Repr

instance : Inhabited MetaData :=
  ⟨{ FunctionName := "", InputParameters := [], ReturnParameter := default }⟩

/-- Go `Stats`. -/
structure Stats where
  TotalAccepted : Int
  TotalSubmissions : Int
  deriving DecidableEq, Repr

instance : Inhabited Stats := ⟨{ TotalAccepted := 0, TotalSubmissions := 0 }⟩

/-- Go `Problem`. -/
structure Problem where
  ID : Int
  Title : String
  TitleSlug : String
  MetaData : MetaData
  CodeSnippets : GoMap String String
  Stats : Stats
  EnvInfo : GoMap String String
  IsPaidOnly : Bool
  CanSeeQuestion : Bool
  Difficulty : String
  CategoryTitle : String
  Hints : List String
  deriving DecidableEq, Repr

/-- The zero value `Problem{}`. -/
def Problem.zero : Problem :=
  { ID := 0, Title := "", TitleSlug := "", MetaData := default, CodeSnippets := [],
    Stats := default, EnvInfo := [], IsPaidOnly := false, CanSeeQuestion := false,
    Difficulty := "", CategoryTitle := "", Hints := [] }

instance : Inhabited Problem := ⟨Problem.zero⟩

/-! ## cache.go -/

/-- Nanoseconds in `time.Hour`. -/
def hour : Int := 3600 * 1000000000

/-- Go `problemExpiration = 1 * time.Hour`. -/
def problemExpiration : Int := 1 * hour

/-- Go `entry`. -/
structure entry where
  problem : Problem
  expires : Int
  deriving DecidableEq, Repr

instance : Inhabited entry := ⟨{ problem := Problem.zero, expires := 0 }⟩

/-- Go `cache`: the map of problems by title slug. -/
structure cache where
  problems : GoMap String entry
  deriving DecidableEq, Repr

/-- Go `newCache`. -/
def newCache : cache :=
  { problems := [] }

/-- One iteration of the loop of `cleanup`, at key `titleSlug`. -/
def cleanupStep (now : Int) (problems : GoMap String entry) (titleSlug : String) :
    GoMap String entry :=
  if (GoMap.index problems titleSlug).1.expires < now then
    GoMap.delete problems titleSlug
  else
    problems

/-- Go `cache.cleanup`: ranges over the keys of the map and deletes each key
whose entry expired before `now`. -/
def cache.cleanup (c : cache) (now : Int) : cache :=
  { problems := (GoMap.keys c.problems).foldl (cleanupStep now) c.problems }

/-- Go `cache.add`. -/
def cache.add (c : cache) (p : Problem) (now : Int) : cache :=
  { problems := GoMap.set c.problems p.TitleSlug
      { problem := p, expires := now + problemExpiration } }

/-- Go `cache.get`. -/
def cache.get (c : cache) (titleSlug : String) : Problem × Bool :=
  let (e, ok) := GoMap.index c.problems titleSlug
  (e.problem, ok)

/-! ## service.go: the error values -/

/-- A Go `error` value of this package.  `ErrorProblemNotFound` and
`ErrorSystem` are the two package-level `errors.New` values, `foreign` is an
error made outside the package (transport, `encoding/json`, `io`), `errorf`
is `fmt.Errorf` without `%w` and `wrapf` is `fmt.Errorf` with one `%w`
operand; both carry the formatted message. -/
inductive GoError where
  | ErrorProblemNotFound
  | ErrorSystem
  | foreign (msg : String)
  | errorf (msg : String)
  | wrapf (msg : String) (err : GoError)
  deriving DecidableEq, Repr

/-- The method `Error()`. -/
def GoError.Error : GoError → String
  | .ErrorProblemNotFound => "problem not found"
  | .ErrorSystem => "system error"
  | .foreign msg => msg
  | .errorf msg => msg
  | .wrapf msg _ => msg

/-- The call `fmt.Errorf(pre + "%w", err)`. -/
def wrapAfter (pre : String) (err : GoError) : GoError :=
  .wrapf (pre ++ err.Error) err

/-- The call `fmt.Errorf("%w" + post, err)`. -/
def wrapBefore (err : GoError) (post : String) : GoError :=
  .wrapf (err.Error ++ post) err

/-- The call `errors.Is(err, target)` for a target that is one of the two
package-level error values: `err` is the target or wraps it. -/
def errorsIs : GoError → GoError → Bool
  | .wrapf msg err, target =>
      decide (GoError.wrapf msg err = target) || errorsIs err target
  | err, target => decide (err = target)

/-- The result of a call that may block for ever on the mutex. -/
inductive Outcome (α : Type) where
  | returned (a : α)
  | blocked
  deriving DecidableEq, Repr

/-! ## client.go: wire types -/

/-- Go `leetcodeURL`. -/
def leetcodeURL : String := "https://leetcode.com"

/-- Go `graphqlAPIEndpoint`. -/
def graphqlAPIEndpoint : String := leetcodeURL ++ "/graphql"

/-- Go `problemByTitleSlugQuery`. -/
def problemByTitleSlugQuery : String :=
  "query questionData($titleSlug: String!) \x7b\n\t questionData: question(titleSlug: $titleSlug) \x7b\n\t\tquestionId\n\t\ttitle\n\t\ttitleSlug\n\t\texampleTestcases\n\t\tcodeSnippets \x7b\n\t\t\tlangSlug\n\t\t\tcode\n\t\t\x7d\n\t\tcontent\n\t\tisPaidOnly\n\t\tcanSeeQuestion\n\t\thints\n\t\tmetaData\n\t\x7d\n\x7d\n"

/-- Go `totalProblemsQuery`. -/
def totalProblemsQuery : String :=
  "query problemsetQuestionList($categorySlug: String, $filters: QuestionListFilterInput) \x7b\n\tproblemsetQuestionList: questionList(\n\t\tcategorySlug: $categorySlug\n\t\tfilters: $filters\n\t) \x7b\n\t\ttotal: totalNum\n\t\x7d\n\x7d\n"

/-- Go `problemListQuery`. -/
def problemListQuery : String :=
  "query problemsetQuestionList($categorySlug: String, $filters: QuestionListFilterInput, $limit: Int) \x7b\n\tproblemsetQuestionList: questionList(\n\t\tcategorySlug: $categorySlug\n\t\tfilters: $filters\n\t\tlimit: $limit\n\t) \x7b\n\t\tquestions: data \x7b\n\t\t\ttitle\n\t\t\ttitleSlug\n\t\t\tfrontendQuestionId: questionFrontendId\n\t\t\x7d\n\t\x7d\n\x7d\n"

/-- Go `variableTitleSlug`. -/
def variableTitleSlug : String := "titleSlug"

/-- Go `variableCategorySlug`. -/
def variableCategorySlug : String := "categorySlug"

/-- Go `variableFilters`. -/
def variableFilters : String := "filters"

/-- Go `variableLimit`. -/
def variableLimit : String := "limit"

/-- Go `csrfTokenCookie`. -/
def csrfTokenCookie : String := "csrftoken"

/-- Go `fmt.Sprintf(problemRefererTemplate, titleSlug)`. -/
def problemReferer (titleSlug : String) : String :=
  leetcodeURL ++ "/problems/" ++ titleSlug ++ "/description/"

/-- Go `problemListReferer`. -/
def problemListReferer : String := leetcodeURL ++ "/problemset/all/"

/-- The values the package stores in a `queryVariables` map. -/
inductive Variable where
  | str (s : String)
  | int (n : Int)
  | emptyStruct
  deriving DecidableEq, Repr

/-- Go `queryVariables`. -/
abbrev queryVariables := GoMap String Variable

/-- Go `graphQLRequest`. -/
structure graphQLRequest where
  Query : String
  Variables : queryVariables
  deriving DecidableEq, Repr

/-- Go `codeSnippet`. -/
structure codeSnippet where
  LangSlug : String
  Code : String
  deriving DecidableEq, Repr

/-- Go `parameter`. -/
structure parameter where
  Name : String
  «Type» : String
  deriving DecidableEq, Repr

/-- Go `metaData`. -/
structure metaData where
  Name : String
  Params : List parameter
  Return : parameter
  deriving DecidableEq, Repr

/-- Go `stats`. -/
structure stats where
  TotalAcceptedRaw : Int
  TotalSubmissionsRaw : Int
  deriving DecidableEq, Repr

/-- Go `envInfo`: langSlug to the list of its descriptions. -/
abbrev envInfo := GoMap String (List String)

/-- Go `problemData`. -/
structure problemData where
  ID : String
  Title : String
  TitleSlug : String
  CodeSnippets : List codeSnippet
  Content : String
  IsPaidOnly : Bool
  CanSeeQuestion : Bool
  Difficulty : String
  CategoryTitle : String
  Hints : List String
  MetaDataRaw : String
  StatsRaw : String
  EnvInfoRaw : String
  MetaData : metaData
  Stats : stats
  EnvInfo : envInfo
  deriving DecidableEq, Repr

/-- Go `problemTitleMap` (the struct type of one listed problem). -/
structure problemTitleMap where
  Title : String
  TitleSlug : String
  ID : String
  deriving DecidableEq, Repr

/-- The fields of `http.Cookie` the package reads. -/
structure Cookie where
  Name : String
  Value : String
  Expires : Int
  deriving DecidableEq, Repr

/-- The parts of `http.Request` the package sets.  Header keys are kept as
written. -/
structure Request where
  Method : String
  URL : String
  Body : String
  Cookies : List Cookie
  Header : GoMap String String
  deriving DecidableEq, Repr

/-- The parts of `http.Response` the package reads: what `io.ReadAll` gives
on the body, and what `Cookies()` gives. -/
structure Response where
  Body : Except GoError String
  Cookies : List Cookie

/-- Go `httpClient`, the injected transport: the answer of `Do` to a request,
given the requests it has served before (oldest first). -/
abbrev httpClient := List Request → Request → Except GoError Response

/-- The functions of `encoding/json` as the package uses them, one per
target type: `Marshal` of a `graphQLRequest`, and `Unmarshal` into
`responseDataWrapper` (giving its `Data`), `problemDataResponseWrapper`
(giving its `Question`, whose `json:"-"` fields are zero), `metaData`,
`stats`, `envInfo`, `totalProblemsData` (giving `TotalNum`) and
`problemReferenceList` (giving `Questions`). -/
structure Json where
  Marshal : graphQLRequest → Except GoError String
  UnmarshalData : String → Except GoError String
  UnmarshalQuestion : String → Except GoError problemData
  UnmarshalMetaData : String → Except GoError metaData
  UnmarshalStats : String → Except GoError stats
  UnmarshalEnvInfo : String → Except GoError envInfo
  UnmarshalTotal : String → Except GoError Int
  UnmarshalQuestions : String → Except GoError (List problemTitleMap)

/-! ## service.go: the client -/

/-- Go `refreshCooldown = 1 * time.Hour`. -/
def refreshCooldown : Int := 1 * hour

/-- Go `Client`.  `calls` is the record of the requests handed to `cli.Do`
(oldest first); `muReaders` is the number of read locks held on `mu`. -/
structure Client where
  calls : List Request
  muReaders : Nat
  csrf : Option Cookie
  problemIDMap : Option (GoMap Int String)
  problemTitleMap : Option (GoMap String String)
  problemCache : cache
  deriving DecidableEq, Repr

/-- Go `NewAPIClient`: both index maps are nil, no token, a new cache. -/
def NewAPIClient : Client :=
  { calls := [], muReaders := 0, csrf := none, problemIDMap := none,
    problemTitleMap := none, problemCache := newCache }

/-- The call `c.mu.RLock()`; no writer ever holds the lock between calls. -/
def Client.RLock (c : Client) : Client :=
  { c with muReaders := c.muReaders + 1 }

/-- The call `c.mu.RUnlock()`. -/
def Client.RUnlock (c : Client) : Client :=
  { c with muReaders := c.muReaders - 1 }

/-- Whether `c.mu.Lock()` can be acquired: it waits for every read lock to be
released, so it never returns while the caller itself holds one. -/
def Client.canLock (c : Client) : Bool :=
  decide (c.muReaders = 0)

/-- The call `c.cli.Do(req)`. -/
def Client.Do (cli : httpClient) (c : Client) (req : Request) :
    Except GoError Response × Client :=
  (cli c.calls req, { c with calls := c.calls ++ [req] })

/-! ## client.go: requests -/

/-- Go `Client.addCSRFHeaders`. -/
def addCSRFHeaders (c : Client) (req : Request) : Except GoError Request :=
  match c.csrf with
  | none => .error (.errorf "csrf token is empty")
  | some csrf =>
    .ok { req with
      Cookies := req.Cookies ++ [csrf]
      Header := GoMap.set req.Header "x-csrftoken" csrf.Value }

/-- Go `Client.addQueryHeaders`. -/
def addQueryHeaders (req : Request) : Request :=
  { req with
    Header := GoMap.set (GoMap.set req.Header "Content-Type" "application/json")
      "Cache-Control" "no-cache" }

/-- Go `Client.addRefererHeader`. -/
def addRefererHeader (req : Request) (referer : String) : Request :=
  { req with Header := GoMap.set req.Header "Referer" referer }

/-- Go `Client.newRequest`.  `http.NewRequestWithContext` does not fail on
the constant method `POST` and the constant URL. -/
def newRequest (js : Json) (c : Client) (query : String) (vars : queryVariables) :
    Except GoError Request :=
  match js.Marshal { Query := query, Variables := vars } with
  | .error err => .error (wrapAfter "marshal question request: " err)
  | .ok body =>
    let req : Request :=
      { Method := "POST", URL := graphqlAPIEndpoint, Body := body, Cookies := [], Header := [] }
    match addCSRFHeaders c req with
    | .error err => .error (wrapAfter "add csrf headers: " err)
    | .ok req => .ok (addQueryHeaders req)

/-- Go `Client.doRequest`. -/
def doRequest (cli : httpClient) (js : Json) (c : Client) (req : Request) :
    Except GoError String × Client :=
  match c.Do cli req with
  | (.error err, c) => (.error (wrapAfter "http request: " err), c)
  | (.ok response, c) =>
    match response.Body with
    | .error err => (.error (wrapAfter "read response data: " err), c)
    | .ok body =>
      match js.UnmarshalData body with
      | .error err => (.error (wrapAfter "response unmarshal: " err), c)
      | .ok data => (.ok data, c)

/-- Go `Client.parseAdditionalData`. -/
def parseAdditionalData (js : Json) (data : problemData) : Except GoError problemData :=
  match js.UnmarshalMetaData data.MetaDataRaw with
  | .error err => .error (wrapAfter "unmarshal metadata: " err)
  | .ok md =>
    let data := { data with MetaData := md }
    match js.UnmarshalStats data.StatsRaw with
    | .error err => .error (wrapAfter "unmarshal stats: " err)
    | .ok st =>
      let data := { data with Stats := st }
      match js.UnmarshalEnvInfo data.EnvInfoRaw with
      | .error err => .error (wrapAfter "unmarshal metadata: " err)
      | .ok ei => .ok { data with EnvInfo := ei }

/-- Go `Client.getProblemDataByTitleSlug` (the `fmt.Printf` of the data is
left out). -/
def getProblemDataByTitleSlug (cli : httpClient) (js : Json) (c : Client) (titleSlug : String) :
    Except GoError problemData × Client :=
  match newRequest js c problemByTitleSlugQuery [(variableTitleSlug, .str titleSlug)] with
  | .error err => (.error (wrapAfter "init request: " err), c)
  | .ok req =>
    let req := addRefererHeader req (problemReferer titleSlug)
    match doRequest cli js c req with
    | (.error err, c) => (.error (wrapAfter "query: " err), c)
    | (.ok data, c) =>
      match js.UnmarshalQuestion data with
      | .error err => (.error (wrapAfter "response unmarshal: " err), c)
      | .ok question =>
        match parseAdditionalData js question with
        | .error err => (.error (wrapAfter "parse fields: " err), c)
        | .ok question => (.ok question, c)

/-- Go `Client.getTotalProblemCount`. -/
def getTotalProblemCount (cli : httpClient) (js : Json) (c : Client) :
    Except GoError Int × Client :=
  match newRequest js c totalProblemsQuery
      [("categorySlug", .str ""), ("filters", .emptyStruct)] with
  | .error err => (.error (wrapAfter "init request: " err), c)
  | .ok req =>
    let req := addRefererHeader req problemListReferer
    match doRequest cli js c req with
    | (.error err, c) => (.error (wrapAfter "query: " err), c)
    | (.ok data, c) =>
      match js.UnmarshalTotal data with
      | .error err => (.error (wrapAfter "response unmarshal: " err), c)
      | .ok total => (.ok total, c)

/-- The builtin `len` on a map that may be nil. -/
def lenMap {K V : Type} : Option (GoMap K V) → Int
  | none => 0
  | some m => (GoMap.len m : Int)

/-- Go `Client.refreshTitleSlugMaps`.  The read lock taken before the
comparison is released only on the early return; the final `c.mu.Lock()` is
then reached with that read lock held. -/
def refreshTitleSlugMaps (cli : httpClient) (js : Json) (c : Client) :
    Outcome (Option GoError) × Client :=
  match getTotalProblemCount cli js c with
  | (.error err, c) => (.returned (some (wrapAfter "get problem count: " err)), c)
  | (.ok problemCount, c) =>
    let c := c.RLock
    if lenMap c.problemIDMap = problemCount then
      (.returned none, c.RUnlock)
    else
      match newRequest js c problemListQuery
          [(variableCategorySlug, .str ""), (variableFilters, .emptyStruct),
           (variableLimit, .int problemCount)] with
      | .error err => (.returned (some (wrapAfter "init request: " err)), c)
      | .ok req =>
        let req := addRefererHeader req problemListReferer
        match doRequest cli js c req with
        | (.error err, c) => (.returned (some (wrapAfter "query: " err)), c)
        | (.ok data, c) =>
          match js.UnmarshalQuestions data with
          | .error err => (.returned (some (wrapAfter "response unmarshal: " err)), c)
          | .ok _parsedResponse =>
            if c.canLock then (.returned none, c) else (.blocked, c)

/-- The guard of `refreshCSRFToken`:
`csrf != nil && csrf.Expires.After(time.Now().Add(-2*refreshCooldown))`. -/
def csrfFresh (csrf : Option Cookie) (now : Int) : Bool :=
  match csrf with
  | none => false
  | some csrf => decide (now + -2 * refreshCooldown < csrf.Expires)

/-- Go `Client.refreshCSRFToken`.  `http.NewRequestWithContext` does not fail
on the constant method `GET` and the constant URL. -/
def refreshCSRFToken (cli : httpClient) (c : Client) (now : Int) :
    Outcome (Option GoError) × Client :=
  let c := c.RLock
  let csrf := c.csrf
  let c := c.RUnlock
  if csrfFresh csrf now then
    (.returned none, c)
  else
    let req : Request :=
      { Method := "GET", URL := leetcodeURL, Body := "", Cookies := [], Header := [] }
    match c.Do cli req with
    | (.error err, c) => (.returned (some (wrapAfter "http request: " err)), c)
    | (.ok res, c) =>
      match res.Cookies.find? (fun cookie => decide (cookie.Name = csrfTokenCookie)) with
      | none => (.returned (some (.errorf "no csrftoken cookie found in response")), c)
      | some csrfCookie =>
        if c.canLock then (.returned none, { c with csrf := some csrfCookie })
        else (.blocked, c)

/-! ## model.go: conversion to the domain model -/

/-- The value of a string of ASCII decimal digits, most significant first;
`none` when a character is not a digit. -/
def digitsValue : List Char → Nat → Option Nat
  | [], acc => some acc
  | ch :: rest, acc =>
    if '0' ≤ ch ∧ ch ≤ '9' then digitsValue rest (acc * 10 + (ch.toNat - '0'.toNat))
    else none

/-- Go `strconv.Atoi` on a 64-bit platform: an optional sign, then at least
one decimal digit and nothing else, the value within the range of `int`;
`none` stands for a non-nil error. -/
def Atoi (s : String) : Option Int :=
  let (neg, ds) : Bool × List Char :=
    match s.toList with
    | '-' :: rest => (true, rest)
    | '+' :: rest => (false, rest)
    | rest => (false, rest)
  if ds.isEmpty then none
  else
    match digitsValue ds 0 with
    | none => none
    | some n =>
      let v : Int := if neg then -(n : Int) else (n : Int)
      if -(2 : Int) ^ 63 ≤ v ∧ v < (2 : Int) ^ 63 then some v else none

/-- The verb `%s` of `fmt` on a `[]string`. -/
def fmtStrings (env : List String) : String :=
  "[" ++ " ".intercalate env ++ "]"

/-- The loop of `externalProblemFromProblemData` over `data.EnvInfo`, in the
order the `range` visits it. -/
def envInfoLoop : List (String × List String) → GoMap String String →
    Except GoError (GoMap String String)
  | [], envinfo => .ok envinfo
  | (langSlug, env) :: rest, envinfo =>
    if env.length < 2 then
      .error (.errorf ("invalid env info for " ++ langSlug ++ ": " ++ fmtStrings env))
    else
      envInfoLoop rest (GoMap.set envinfo langSlug (env.getD 1 ""))

/-- Go `externalProblemFromProblemData`. -/
def externalProblemFromProblemData (data : problemData) : Problem × Option GoError :=
  let p : Problem :=
    { Problem.zero with
      Title := data.Title
      TitleSlug := data.TitleSlug
      Stats :=
        { TotalAccepted := data.Stats.TotalAcceptedRaw
          TotalSubmissions := data.Stats.TotalSubmissionsRaw }
      IsPaidOnly := data.IsPaidOnly
      CanSeeQuestion := data.CanSeeQuestion
      Difficulty := data.Difficulty
      CategoryTitle := data.CategoryTitle
      Hints := data.Hints }
  match Atoi data.ID with
  | none => (Problem.zero, some (.errorf ("invalid id string: " ++ data.ID)))
  | some id =>
    let p := { p with ID := id }
    let p := { p with
      CodeSnippets := data.CodeSnippets.foldl
        (fun (m : GoMap String String) (c : codeSnippet) => GoMap.set m c.LangSlug c.Code) [] }
    let p := { p with
      MetaData :=
        { FunctionName := data.MetaData.Name
          InputParameters := []
          ReturnParameter :=
            { Name := data.MetaData.Return.Name, «Type» := data.MetaData.Return.«Type» } } }
    let params : List Parameter :=
      data.MetaData.Params.foldl
        (fun (params : List Parameter) (i : parameter) =>
          params ++ [{ Name := i.Name, «Type» := i.«Type» }]) []
    let p := { p with MetaData := { p.MetaData with InputParameters := params } }
    match envInfoLoop data.EnvInfo [] with
    | .error err => (Problem.zero, some err)
    | .ok envinfo => ({ p with EnvInfo := envinfo }, none)

/-! ## service.go: lookups and the refresh loop -/

/-- Go `Client.GetProblemByTitleSlug`. -/
def GetProblemByTitleSlug (cli : httpClient) (js : Json) (c : Client) (titleSlug : String)
    (now : Int) : (Problem × Option GoError) × Client :=
  match c.problemCache.get titleSlug with
  | (p, true) => ((p, none), c)
  | (_, false) =>
    match getProblemDataByTitleSlug cli js c titleSlug with
    | (.error _, c) =>
      ((Problem.zero, some (wrapBefore .ErrorSystem ": get problem data from API")), c)
    | (.ok data, c) =>
      match externalProblemFromProblemData data with
      | (_, some _) => ((Problem.zero, some (wrapBefore .ErrorSystem ": ")), c)
      | (problem, none) =>
        ((problem, none), { c with problemCache := c.problemCache.add problem now })

/-- Go `Client.GetProblemByTitle`. -/
def GetProblemByTitle (cli : httpClient) (js : Json) (c : Client) (title : String)
    (now : Int) : (Problem × Option GoError) × Client :=
  match c.problemTitleMap with
  | none =>
    ((Problem.zero, some (wrapBefore .ErrorSystem ": problem title map is not initialized")), c)
  | some m =>
    let c := c.RLock
    let (titleSlug, ok) := GoMap.index m title
    let c := c.RUnlock
    if ok then GetProblemByTitleSlug cli js c titleSlug now
    else ((Problem.zero, some .ErrorProblemNotFound), c)

/-- Go `Client.GetProblemByID`. -/
def GetProblemByID (cli : httpClient) (js : Json) (c : Client) (id : Int)
    (now : Int) : (Problem × Option GoError) × Client :=
  match c.problemIDMap with
  | none =>
    ((Problem.zero, some (wrapBefore .ErrorSystem ": problem title map is not initialized")), c)
  | some m =>
    let c := c.RLock
    let (titleSlug, ok) := GoMap.index m id
    let c := c.RUnlock
    if ok then GetProblemByTitleSlug cli js c titleSlug now
    else ((Problem.zero, some .ErrorProblemNotFound), c)

/-- The branch `case <-ticker.C` of the loop of `Client.Run`: both refreshes,
their errors only logged.  The loop goes on unless a refresh blocks. -/
def runTick (cli : httpClient) (js : Json) (c : Client) (now : Int) : Outcome Unit × Client :=
  match refreshCSRFToken cli c now with
  | (.blocked, c) => (.blocked, c)
  | (.returned _, c) =>
    match refreshTitleSlugMaps cli js c with
    | (.blocked, c) => (.blocked, c)
    | (.returned _, c) => (.returned (), c)

/-- The branch `case <-c.close` of the loop of `Client.Run`: both index maps
are set to nil and the goroutine returns. -/
def runClose (c : Client) : Client :=
  { c with problemIDMap := none, problemTitleMap := none }

/-! ## Sample states -/

/-- The problem of `TestUnit_Cache`. -/
def testProblem : Problem :=
  { Problem.zero with ID := 1, Title := "Test Problem", TitleSlug := "test-problem" }

/-- The entry `TestUnit_Cache` stores under `"123"`, read at the time the
test reads the clock (taken as `0` here). -/
def staleEntry : entry :=
  { problem := { Problem.zero with ID := 2 }, expires := 0 }

/-- A cache holding `staleEntry` alone. -/
def staleCache : cache :=
  { problems := [("123", staleEntry)] }

/-- A stored anti-forgery token. -/
def sampleToken : Cookie :=
  { Name := "csrftoken", Value := "tok", Expires := 0 }

/-- A new client that holds `sampleToken`: empty cache, nil index maps. -/
def sampleClient : Client :=
  { NewAPIClient with csrf := some sampleToken }

/-- The text of a response to the problem query: the `data` object holds a
`questionData` whose `titleSlug` is `b`. -/
def questionBody : String :=
  "\x7b\"data\":\x7b\"questionData\":\x7b\"questionId\":\"1\",\"titleSlug\":\"b\",\"metaData\":\"\x7b\x7d\",\"stats\":\"\x7b\x7d\",\"envInfo\":\"\x7b\x7d\"\x7d\x7d\x7d"

/-- The `data` field of `questionBody`. -/
def questionData : String :=
  "\x7b\"questionData\":\x7b\"questionId\":\"1\",\"titleSlug\":\"b\",\"metaData\":\"\x7b\x7d\",\"stats\":\"\x7b\x7d\",\"envInfo\":\"\x7b\x7d\"\x7d\x7d"

/-- The text of a response to the total-count query: `total` is `1`. -/
def totalBody : String :=
  "\x7b\"data\":\x7b\"problemsetQuestionList\":\x7b\"total\":1\x7d\x7d\x7d"

/-- The `data` field of `totalBody`. -/
def totalData : String :=
  "\x7b\"problemsetQuestionList\":\x7b\"total\":1\x7d\x7d"

/-- The text of a response to the list query: one listed problem. -/
def listBody : String :=
  "\x7b\"data\":\x7b\"questions\":[\x7b\"title\":\"Two Sum\",\"titleSlug\":\"two-sum\",\"questionFrontendId\":\"1\"\x7d]\x7d\x7d"

/-- The `data` field of `listBody`. -/
def listData : String :=
  "\x7b\"questions\":[\x7b\"title\":\"Two Sum\",\"titleSlug\":\"two-sum\",\"questionFrontendId\":\"1\"\x7d]\x7d"

/-- What `encoding/json` decodes `questionData` into. -/
def sampleQuestion : problemData :=
  { ID := "1", Title := "", TitleSlug := "b", CodeSnippets := [], Content := "",
    IsPaidOnly := false, CanSeeQuestion := false, Difficulty := "", CategoryTitle := "",
    Hints := [], MetaDataRaw := "\x7b\x7d", StatsRaw := "\x7b\x7d", EnvInfoRaw := "\x7b\x7d",
    MetaData := { Name := "", Params := [], Return := { Name := "", «Type» := "" } },
    Stats := { TotalAcceptedRaw := 0, TotalSubmissionsRaw := 0 }, EnvInfo := [] }

/-- The error `encoding/json` gives on a text it cannot decode. -/
def jsonError : GoError := .foreign "unexpected end of JSON input"

/-- The behaviour of `encoding/json` on the sample texts above (the body of a
request is represented by its query text); every other text is taken as
undecodable. -/
def sampleJson : Json :=
  { Marshal := fun q => .ok q.Query
    UnmarshalData := fun body =>
      if body = questionBody then .ok questionData
      else if body = totalBody then .ok totalData
      else if body = listBody then .ok listData
      else .error jsonError
    UnmarshalQuestion := fun data =>
      if data = questionData then .ok sampleQuestion else .error jsonError
    UnmarshalMetaData := fun raw =>
      if raw = "\x7b\x7d" then .ok { Name := "", Params := [], Return := { Name := "", «Type» := "" } }
      else .error jsonError
    UnmarshalStats := fun raw =>
      if raw = "\x7b\x7d" then .ok { TotalAcceptedRaw := 0, TotalSubmissionsRaw := 0 }
      else .error jsonError
    UnmarshalEnvInfo := fun raw =>
      if raw = "\x7b\x7d" then .ok [] else .error jsonError
    UnmarshalTotal := fun data =>
      if data = totalData then .ok 1 else .error jsonError
    UnmarshalQuestions := fun data =>
      if data = listData then .ok [{ Title := "Two Sum", TitleSlug := "two-sum", ID := "1" }]
      else .error jsonError }

/-- A transport that answers every request with `questionBody`. -/
def questionTransport : httpClient :=
  fun _ _ => .ok { Body := .ok questionBody, Cookies := [] }

/-- The problem `questionBody` converts to. -/
def problemB : Problem :=
  { Problem.zero with ID := 1, TitleSlug := "b" }

/-- A transport that answers its first request with `totalBody` and every
later one with `listBody`. -/
def listTransport : httpClient :=
  fun calls _ =>
    if calls.length = 0 then .ok { Body := .ok totalBody, Cookies := [] }
    else .ok { Body := .ok listBody, Cookies := [] }

/-- A transport whose every call fails. -/
def failingTransport : httpClient :=
  fun _ _ => .error (.foreign "test error")

/-- A transport that answers with a response carrying no cookie. -/
def noCookieTransport : httpClient :=
  fun _ _ => .ok { Body := .ok "", Cookies := [] }

/-- A client whose token expired one hour before the time `10 * hour`. -/
def expiredTokenClient : Client :=
  { NewAPIClient with csrf := some { Name := "csrftoken", Value := "tok", Expires := 9 * hour } }

/-- The data of the case "normal conversion" of
`TestUnit_ExportProblemFromProblemData`. -/
def normalData : problemData :=
  { ID := "1", Title := "Test Problem", TitleSlug := "test-problem",
    CodeSnippets := [{ LangSlug := "golang", Code := "<golang code>" }],
    Content := "123", IsPaidOnly := false, CanSeeQuestion := false,
    Difficulty := "easy", CategoryTitle := "Algorithms",
    Hints := ["hint #1", "hint #2"],
    MetaDataRaw := "", StatsRaw := "", EnvInfoRaw := "",
    MetaData :=
      { Name := "testProblem", Params := [{ Name := "input", «Type» := "integer[]" }],
        Return := { Name := "", «Type» := "integer[]" } },
    Stats := { TotalAcceptedRaw := 10, TotalSubmissionsRaw := 20 },
    EnvInfo := [("golang", ["Go", "<golang env info>"])] }

/-- The problem the case "normal conversion" expects. -/
def normalProblem : Problem :=
  { ID := 1, Title := "Test Problem", TitleSlug := "test-problem",
    MetaData :=
      { FunctionName := "testProblem",
        InputParameters := [{ Name := "input", «Type» := "integer[]" }],
        ReturnParameter := { Name := "", «Type» := "integer[]" } },
    CodeSnippets := [("golang", "<golang code>")],
    Stats := { TotalAccepted := 10, TotalSubmissions := 20 },
    EnvInfo := [("golang", "<golang env info>")],
    IsPaidOnly := false, CanSeeQuestion := false, Difficulty := "easy",
    CategoryTitle := "Algorithms", Hints := ["hint #1", "hint #2"] }

/-- The zero value `problemData{}`. -/
def problemData.zero : problemData :=
  { ID := "", Title := "", TitleSlug := "", CodeSnippets := [], Content := "",
    IsPaidOnly := false, CanSeeQuestion := false, Difficulty := "", CategoryTitle := "",
    Hints := [], MetaDataRaw := "", StatsRaw := "", EnvInfoRaw := "",
    MetaData := { Name := "", Params := [], Return := { Name := "", «Type» := "" } },
    Stats := { TotalAcceptedRaw := 0, TotalSubmissionsRaw := 0 }, EnvInfo := [] }

/-- The data of the case "id error" of the same test. -/
def idErrorData : problemData :=
  { problemData.zero with ID := "asdfgh" }

/-- The data of the case "env info error" of the same test. -/
def envErrorData : problemData :=
  { problemData.zero with ID := "1", EnvInfo := [("golang", [])] }

/-! ## Theorems: Go maps -/

namespace GoMap

variable {K V : Type} [DecidableEq K]

theorem find_set (m : GoMap K V) (k : K) (v : V) (k' : K) :
    find (set m k v) k' = if k = k' then some v else find m k' := by
  induction m with
  | nil => simp [set, find]
  | cons kv m ih =>
    obtain ⟨k0, v0⟩ := kv
    by_cases h0 : k0 = k
    · subst h0
      by_cases h1 : k0 = k' <;> simp [set, find, h1]
    · by_cases h1 : k0 = k'
      · subst h1
        have h2 : ¬ k = k0 := fun h => h0 h.symm
        simp [set, find, h0, h2]
      · simp [set, find, h0, h1, ih]

theorem find_delete (m : GoMap K V) (k k' : K) :
    find (delete m k) k' = if k = k' then none else find m k' := by
  induction m with
  | nil => simp [delete, find]
  | cons kv m ih =>
    obtain ⟨k0, v0⟩ := kv
    by_cases h0 : k0 = k
    · subst h0
      by_cases h1 : k0 = k'
      · subst h1
        simpa [delete, find] using ih
      · simp [delete, find, h1, ih]
    · by_cases h1 : k0 = k'
      · subst h1
        have h2 : ¬ k = k0 := fun h => h0 h.symm
        simp [delete, find, h0, h2]
      · simp [delete, find, h0, h1, ih]

theorem find_isSome_iff_mem (m : GoMap K V) (k : K) :
    (∃ v, find m k = some v) ↔ ∃ v, (k, v) ∈ m := by
  induction m with
  | nil => simp [find]
  | cons kv m ih =>
    obtain ⟨k0, v0⟩ := kv
    by_cases h0 : k0 = k
    · subst h0
      simp [find]
    · have h1 : ¬ k = k0 := fun h => h0 h.symm
      simp [find, h0, h1]
      simpa using ih

end GoMap

/-! ## Theorems: the cache -/

theorem get_of_find_some (c : cache) (k : String) (e : entry)
    (h : GoMap.find c.problems k = some e) : c.get k = (e.problem, true) := by
  simp [cache.get, GoMap.index, h]

theorem get_of_find_none (c : cache) (k : String)
    (h : GoMap.find c.problems k = none) : c.get k = (Problem.zero, false) := by
  simp [cache.get, GoMap.index, h]
  rfl

theorem cleanupStep_find (now : Int) (m : GoMap String entry) (k0 k : String) :
    GoMap.find (cleanupStep now m k0) k =
      if k0 = k then Option.filter (fun e => decide (now ≤ e.expires)) (GoMap.find m k)
      else GoMap.find m k := by
  unfold cleanupStep
  by_cases hk : k0 = k
  · subst hk
    cases hf : GoMap.find m k0 with
    | none =>
      by_cases hx : (GoMap.index m k0).1.expires < now
      · simp [hx, GoMap.find_delete, Option.filter]
      · simp [hx, hf, Option.filter]
    | some e =>
      have hi : (GoMap.index m k0).1 = e := by simp [GoMap.index, hf]
      by_cases hx : e.expires < now
      · have hn : ¬ now ≤ e.expires := not_le.mpr hx
        simp [hi, hx, hn, GoMap.find_delete, Option.filter]
      · have hn : now ≤ e.expires := not_lt.mp hx
        simp [hi, hx, hn, hf, Option.filter]
  · by_cases hx : (GoMap.index m k0).1.expires < now
    · simp [hx, hk, GoMap.find_delete]
    · simp [hx, hk]

theorem filter_filter_expiry (now : Int) (o : Option entry) :
    Option.filter (fun e => decide (now ≤ e.expires))
        (Option.filter (fun e => decide (now ≤ e.expires)) o) =
      Option.filter (fun e => decide (now ≤ e.expires)) o := by
  cases o with
  | none => rfl
  | some e =>
    by_cases h : now ≤ e.expires <;> simp [Option.filter, h]

theorem cleanup_foldl_find (now : Int) (ks : List String) (m : GoMap String entry)
    (k : String) :
    GoMap.find (ks.foldl (cleanupStep now) m) k =
      if k ∈ ks then Option.filter (fun e => decide (now ≤ e.expires)) (GoMap.find m k)
      else GoMap.find m k := by
  induction ks generalizing m with
  | nil => simp
  | cons k0 ks ih =>
    rw [List.foldl_cons, ih, cleanupStep_find]
    by_cases hk : k0 = k
    · subst hk
      by_cases hm : k0 ∈ ks <;> simp [hm, filter_filter_expiry]
    · have hk' : ¬ k = k0 := fun h => hk h.symm
      simp [hk, hk']

theorem cleanup_find (c : cache) (now : Int) (k : String) :
    GoMap.find (c.cleanup now).problems k =
      Option.filter (fun e => decide (now ≤ e.expires)) (GoMap.find c.problems k) := by
  unfold cache.cleanup
  simp only [cleanup_foldl_find]
  by_cases hm : k ∈ GoMap.keys c.problems
  · simp [hm]
  · have hnone : GoMap.find c.problems k = none := by
      cases hf : GoMap.find c.problems k with
      | none => rfl
      | some e =>
        exfalso
        apply hm
        obtain ⟨v, hv⟩ := (GoMap.find_isSome_iff_mem c.problems k).mp ⟨e, hf⟩
        exact List.mem_map.mpr ⟨(k, v), hv, rfl⟩
    simp [hm, hnone, Option.filter]

theorem get_add_same (c : cache) (p : Problem) (now : Int) :
    (c.add p now).get p.TitleSlug = (p, true) := by
  apply get_of_find_some (c.add p now) p.TitleSlug
    { problem := p, expires := now + problemExpiration }
  simp [cache.add, GoMap.find_set]

/-- C1: for every cache state `c`, every problem `p` and every time of the
write, `get(p.TitleSlug)` evaluated right after `add(p)` returns `(p, true)`,
whether or not an entry was stored under that slug before. -/
theorem cache_add_then_get (c : cache) (p : Problem) (now : Int) :
    (c.add p now).get p.TitleSlug = (p, true) :=
  get_add_same c p now

/-- C2: `get(k)` reports `true` exactly when an entry is stored under `k`; it
then returns the stored problem whatever the expiry of the entry is (`get`
reads no clock), and it returns the zero problem and `false` for every key
that is not stored, in particular for every key of a new cache. -/
theorem cache_get_iff_stored (c : cache) (k : String) :
    (((c.get k).2 = true) ↔ ∃ e, (k, e) ∈ c.problems) ∧
    (∀ p expires, GoMap.find c.problems k = some { problem := p, expires := expires } →
      c.get k = (p, true)) ∧
    ((∀ e, (k, e) ∉ c.problems) → c.get k = (Problem.zero, false)) ∧
    newCache.get k = (Problem.zero, false) := by
  refine ⟨?_, ?_, ?_, ?_⟩
  · rw [← GoMap.find_isSome_iff_mem]
    cases hf : GoMap.find c.problems k with
    | none => simp [get_of_find_none c k hf]
    | some e => simp [get_of_find_some c k e hf]
  · intro p expires h
    exact get_of_find_some c k _ h
  · intro h
    apply get_of_find_none
    cases hf : GoMap.find c.problems k with
    | none => rfl
    | some e =>
      obtain ⟨v, hv⟩ := (GoMap.find_isSome_iff_mem c.problems k).mp ⟨e, hf⟩
      exact absurd hv (h v)
  · rfl

/-- Witness of C2: the stale entry of `TestUnit_Cache` is returned, and an
unknown key is not. -/
theorem cache_get_iff_stored_witness :
    staleCache.get "123" = (staleEntry.problem, true) ∧
    staleCache.get "unknown-problem" = (Problem.zero, false) :=
  ⟨(cache_get_iff_stored staleCache "123").2.1 staleEntry.problem staleEntry.expires
      (by decide),
   (cache_get_iff_stored staleCache "unknown-problem").2.2.1
     (by intro e he; simp [staleCache] at he)⟩

/-- C3, as stated, fails: the entry stored under `"123"` expired at time `0`,
and at time `1`, before any sweep, `get` still returns it. -/
theorem cache_get_returns_expired_entry :
    GoMap.find staleCache.problems "123" = some staleEntry ∧
    staleEntry.expires < 1 ∧
    staleCache.get "123" = (staleEntry.problem, true) := by
  decide

/-- C3, amended: `get` reads no clock, so an entry whose expiry has passed is
still returned until a sweep runs; once `cleanup` has run at a time after the
expiry, `get` reports not-found for that key. -/
theorem cache_expired_entry_gone_after_sweep (c : cache) (k : String) (now : Int) (e : entry)
    (hstored : GoMap.find c.problems k = some e) (hexpired : e.expires < now) :
    c.get k = (e.problem, true) ∧ (c.cleanup now).get k = (Problem.zero, false) := by
  refine ⟨get_of_find_some c k e hstored, ?_⟩
  apply get_of_find_none
  rw [cleanup_find, hstored]
  have hn : ¬ now ≤ e.expires := not_le.mpr hexpired
  simp [Option.filter, hn]

/-- Witness of the amended C3, on the stale entry of `TestUnit_Cache`. -/
theorem cache_expired_entry_gone_after_sweep_witness :
    staleCache.get "123" = (staleEntry.problem, true) ∧
    (staleCache.cleanup 1).get "123" = (Problem.zero, false) :=
  cache_expired_entry_gone_after_sweep staleCache "123" 1 staleEntry (by decide) (by decide)

/-- C4: a sweep at `now` removes exactly the entries whose expiry is strictly
before `now` and leaves every other key with the entry it had; so a problem
added at time `t` is still returned after a sweep at any time up to
`t + 1 hour`, and is not returned after a sweep at any later time. -/
theorem cleanup_removes_exactly_expired (c : cache) (now : Int) :
    (∀ k e, GoMap.find c.problems k = some e → e.expires < now →
      GoMap.find (c.cleanup now).problems k = none) ∧
    (∀ k e, GoMap.find c.problems k = some e → ¬ e.expires < now →
      GoMap.find (c.cleanup now).problems k = some e) ∧
    (∀ k, GoMap.find c.problems k = none →
      GoMap.find (c.cleanup now).problems k = none) ∧
    (∀ p t, now ≤ t + 3600 * 1000000000 →
      ((c.add p t).cleanup now).get p.TitleSlug = (p, true)) ∧
    (∀ p t, t + 3600 * 1000000000 < now →
      ((c.add p t).cleanup now).get p.TitleSlug = (Problem.zero, false)) := by
  have hadd : ∀ (p : Problem) (t : Int),
      GoMap.find (c.add p t).problems p.TitleSlug =
        some { problem := p, expires := t + 3600 * 1000000000 } := by
    intro p t
    simp [cache.add, GoMap.find_set, problemExpiration, hour]
  refine ⟨?_, ?_, ?_, ?_, ?_⟩
  · intro k e h hx
    have hn : ¬ now ≤ e.expires := not_le.mpr hx
    rw [cleanup_find, h]
    simp [Option.filter, hn]
  · intro k e h hx
    have hn : now ≤ e.expires := not_lt.mp hx
    rw [cleanup_find, h]
    simp [Option.filter, hn]
  · intro k h
    rw [cleanup_find, h]
    rfl
  · intro p t h
    apply get_of_find_some ((c.add p t).cleanup now) p.TitleSlug
      { problem := p, expires := t + 3600 * 1000000000 }
    rw [cleanup_find, hadd]
    simp only [Option.filter]
    rw [if_pos (by simpa using h)]
  · intro p t h
    apply get_of_find_none
    rw [cleanup_find, hadd]
    have hn : ¬ now ≤ t + 3600 * 1000000000 := not_le.mpr h
    simp only [Option.filter]
    rw [if_neg (by simpa using hn)]

/-- Witness of C4: the sweep at time `1` drops the stale entry and keeps the
problem added at time `0`; a sweep one nanosecond after its expiry drops it. -/
theorem cleanup_removes_exactly_expired_witness :
    GoMap.find (staleCache.cleanup 1).problems "123" = none ∧
    ((staleCache.add testProblem 0).cleanup 3600000000000).get "test-problem" =
      (testProblem, true) ∧
    ((staleCache.add testProblem 0).cleanup 3600000000001).get "test-problem" =
      (Problem.zero, false) :=
  ⟨(cleanup_removes_exactly_expired staleCache 1).1 "123" staleEntry (by decide) (by decide),
   (cleanup_removes_exactly_expired staleCache 3600000000000).2.2.2.1 testProblem 0 (by decide),
   (cleanup_removes_exactly_expired staleCache 3600000000001).2.2.2.2 testProblem 0
     (by decide)⟩

/-! ## Theorems: the client -/

theorem newRequest_without_token (js : Json) (c : Client) (query : String)
    (vars : queryVariables) (h : c.csrf = none) :
    ∃ err, newRequest js c query vars = .error err := by
  unfold newRequest
  cases js.Marshal { Query := query, Variables := vars } with
  | error err => exact ⟨_, rfl⟩
  | ok body => simp [addCSRFHeaders, h]

theorem doRequest_state (cli : httpClient) (js : Json) (c : Client) (req : Request) :
    (doRequest cli js c req).2 = { c with calls := c.calls ++ [req] } := by
  unfold doRequest Client.Do
  cases cli c.calls req with
  | error err => rfl
  | ok response =>
    simp only
    cases response.Body with
    | error err => rfl
    | ok body =>
      simp only
      cases js.UnmarshalData body <;> rfl

theorem getProblemDataByTitleSlug_state (cli : httpClient) (js : Json) (c : Client)
    (titleSlug : String) :
    ∃ reqs, (getProblemDataByTitleSlug cli js c titleSlug).2 =
      { c with calls := c.calls ++ reqs } := by
  unfold getProblemDataByTitleSlug
  cases newRequest js c problemByTitleSlugQuery [(variableTitleSlug, .str titleSlug)] with
  | error err => exact ⟨[], by simp⟩
  | ok req =>
    simp only
    have hs := doRequest_state cli js c (addRefererHeader req (problemReferer titleSlug))
    cases hd : doRequest cli js c (addRefererHeader req (problemReferer titleSlug)) with
    | mk r c1 =>
      rw [hd] at hs
      simp only at hs
      subst hs
      refine ⟨[addRefererHeader req (problemReferer titleSlug)], ?_⟩
      cases r with
      | error err => rfl
      | ok data =>
        simp only
        cases js.UnmarshalQuestion data with
        | error err => rfl
        | ok question =>
          simp only
          cases parseAdditionalData js question <;> rfl

theorem getProblemDataByTitleSlug_without_token (cli : httpClient) (js : Json) (c : Client)
    (titleSlug : String) (h : c.csrf = none) :
    ∃ err, getProblemDataByTitleSlug cli js c titleSlug = (.error err, c) := by
  obtain ⟨err, he⟩ := newRequest_without_token js c problemByTitleSlugQuery
    [(variableTitleSlug, .str titleSlug)] h
  unfold getProblemDataByTitleSlug
  rw [he]
  exact ⟨_, rfl⟩

theorem getProblemByTitleSlug_hit (cli : httpClient) (js : Json) (c : Client) (s : String)
    (now : Int) (p : Problem) (h : c.problemCache.get s = (p, true)) :
    GetProblemByTitleSlug cli js c s now = ((p, none), c) := by
  unfold GetProblemByTitleSlug
  rw [h]

theorem getProblemByTitleSlug_miss_success (cli : httpClient) (js : Json) (c : Client)
    (s : String) (now : Int) (p : Problem) (c' : Client)
    (hmiss : (c.problemCache.get s).2 = false)
    (h : GetProblemByTitleSlug cli js c s now = ((p, none), c')) :
    ∃ reqs, c' = { c with calls := c.calls ++ reqs, problemCache := c.problemCache.add p now } := by
  unfold GetProblemByTitleSlug at h
  cases hg : c.problemCache.get s with
  | mk p0 b =>
    rw [hg] at hmiss
    simp only at hmiss
    subst hmiss
    rw [hg] at h
    simp only at h
    obtain ⟨reqs, hs⟩ := getProblemDataByTitleSlug_state cli js c s
    cases hd : getProblemDataByTitleSlug cli js c s with
    | mk r c1 =>
      rw [hd] at h hs
      simp only at hs
      subst hs
      cases r with
      | error err => simp at h
      | ok data =>
        simp only at h
        cases he : externalProblemFromProblemData data with
        | mk problem oerr =>
          rw [he] at h
          cases oerr with
          | some err => simp at h
          | none =>
            simp only at h
            injection h with h1 h2
            injection h1 with h3 _
            subst h3
            exact ⟨reqs, h2.symm⟩

/-- C5, as stated, fails: the client holds a token, slug `a` is not cached,
the transport answers with a problem whose `titleSlug` is `b`; the fetch of
`a` succeeds with that problem, and right afterwards `get("a")` still reports
not-found: the problem was stored under `b`. -/
theorem fetch_of_a_is_stored_under_b :
    sampleClient.csrf = some sampleToken ∧
    sampleClient.problemCache.get "a" = (Problem.zero, false) ∧
    (GetProblemByTitleSlug questionTransport sampleJson sampleClient "a" 0).1 =
      (problemB, none) ∧
    (GetProblemByTitleSlug questionTransport sampleJson sampleClient "a" 0).2.problemCache.get
      "a" = (Problem.zero, false) ∧
    (GetProblemByTitleSlug questionTransport sampleJson sampleClient "a" 0).2.problemCache.get
      "b" = (problemB, true) := by
  decide

/-- C5, amended: a fetched problem is memoized under its own `TitleSlug`.  If
`GetProblemByTitleSlug(s)` succeeds with `p` for a slug `s` that is not
cached, then right afterwards `get(p.TitleSlug)` returns `(p, true)`, and
nothing but the transport record and the cache has changed; when
`p.TitleSlug` is the requested `s`, `get(s)` returns `(p, true)` and a second
`GetProblemByTitleSlug(s)` returns `p` with no call of the transport. -/
theorem fetch_memoized_under_fetched_slug (cli : httpClient) (js : Json) (c : Client)
    (s : String) (now : Int) (p : Problem) (c' : Client)
    (hmiss : (c.problemCache.get s).2 = false)
    (h : GetProblemByTitleSlug cli js c s now = ((p, none), c')) :
    c'.problemCache.get p.TitleSlug = (p, true) ∧
    c'.problemCache = c.problemCache.add p now ∧
    c'.csrf = c.csrf ∧ c'.problemIDMap = c.problemIDMap ∧
    c'.problemTitleMap = c.problemTitleMap ∧
    (p.TitleSlug = s →
      c'.problemCache.get s = (p, true) ∧
      ∀ (cli' : httpClient) (js' : Json) (now' : Int),
        GetProblemByTitleSlug cli' js' c' s now' = ((p, none), c')) := by
  obtain ⟨reqs, hc⟩ := getProblemByTitleSlug_miss_success cli js c s now p c' hmiss h
  subst hc
  refine ⟨get_add_same _ p now, rfl, rfl, rfl, rfl, ?_⟩
  intro hs
  subst hs
  refine ⟨get_add_same _ p now, ?_⟩
  intro cli' js' now'
  exact getProblemByTitleSlug_hit cli' js' _ p.TitleSlug now' p (get_add_same _ p now)

/-- Witness of the amended C5: the fetch of slug `b` from the sample
transport. -/
theorem fetch_memoized_under_fetched_slug_witness :
    (GetProblemByTitleSlug questionTransport sampleJson sampleClient "b" 0).2.problemCache.get
      "b" = (problemB, true) ∧
    GetProblemByTitleSlug failingTransport sampleJson
      (GetProblemByTitleSlug questionTransport sampleJson sampleClient "b" 0).2 "b" 1 =
      ((problemB, none), (GetProblemByTitleSlug questionTransport sampleJson sampleClient "b" 0).2) :=
  have h := fetch_memoized_under_fetched_slug questionTransport sampleJson sampleClient "b" 0
    problemB (GetProblemByTitleSlug questionTransport sampleJson sampleClient "b" 0).2
    (by decide) (Prod.ext (by decide) rfl)
  ⟨(h.2.2.2.2.2 (by decide)).1, (h.2.2.2.2.2 (by decide)).2 failingTransport sampleJson 1⟩

/-- C6: when the client holds no token and the slug is not cached,
`GetProblemByTitleSlug` returns the zero problem and an error that wraps
`ErrorSystem` and not `ErrorProblemNotFound`; the transport is not called and
the client, its cache included, is unchanged. -/
theorem fetch_without_token_is_system_error (cli : httpClient) (js : Json) (c : Client)
    (s : String) (now : Int)
    (htoken : c.csrf = none) (hmiss : (c.problemCache.get s).2 = false) :
    ∃ err, GetProblemByTitleSlug cli js c s now = ((Problem.zero, some err), c) ∧
      errorsIs err .ErrorSystem = true ∧
      errorsIs err .ErrorProblemNotFound = false ∧
      (GetProblemByTitleSlug cli js c s now).2.calls = c.calls ∧
      (GetProblemByTitleSlug cli js c s now).2.problemCache = c.problemCache := by
  obtain ⟨e, he⟩ := getProblemDataByTitleSlug_without_token cli js c s htoken
  have hr : GetProblemByTitleSlug cli js c s now =
      ((Problem.zero, some (wrapBefore .ErrorSystem ": get problem data from API")), c) := by
    unfold GetProblemByTitleSlug
    cases hg : c.problemCache.get s with
    | mk p0 b =>
      rw [hg] at hmiss
      simp only at hmiss
      subst hmiss
      simp only [he]
  refine ⟨_, hr, ?_, ?_, ?_, ?_⟩
  · decide
  · decide
  · rw [hr]
  · rw [hr]

/-- Witness of C6: a new client has no token and an empty cache. -/
theorem fetch_without_token_is_system_error_witness :
    ∃ err, GetProblemByTitleSlug questionTransport sampleJson NewAPIClient "two-sum" 0 =
        ((Problem.zero, some err), NewAPIClient) ∧
      errorsIs err .ErrorSystem = true ∧
      errorsIs err .ErrorProblemNotFound = false ∧
      (GetProblemByTitleSlug questionTransport sampleJson NewAPIClient "two-sum" 0).2.calls =
        NewAPIClient.calls ∧
      (GetProblemByTitleSlug questionTransport sampleJson NewAPIClient "two-sum" 0).2.problemCache =
        NewAPIClient.problemCache :=
  fetch_without_token_is_system_error questionTransport sampleJson NewAPIClient "two-sum" 0
    (by decide) (by decide)

/-- C7: with a nil title index (resp. ID index), which is the state of a new
client and the state the shutdown branch of `Run` leaves, `GetProblemByTitle`
(resp. `GetProblemByID`) returns the zero problem and the error
"system error: problem title map is not initialized", which wraps
`ErrorSystem` and not `ErrorProblemNotFound`; the client is unchanged, so no
request was made. -/
theorem lookup_with_nil_index_is_system_error (cli : httpClient) (js : Json) (c : Client)
    (title : String) (id : Int) (now : Int) :
    (c.problemTitleMap = none →
      GetProblemByTitle cli js c title now =
        ((Problem.zero,
          some (.wrapf "system error: problem title map is not initialized" .ErrorSystem)), c)) ∧
    (c.problemIDMap = none →
      GetProblemByID cli js c id now =
        ((Problem.zero,
          some (.wrapf "system error: problem title map is not initialized" .ErrorSystem)), c)) ∧
    NewAPIClient.problemTitleMap = none ∧ NewAPIClient.problemIDMap = none ∧
    (runClose c).problemTitleMap = none ∧ (runClose c).problemIDMap = none ∧
    errorsIs (.wrapf "system error: problem title map is not initialized" .ErrorSystem)
      .ErrorSystem = true ∧
    errorsIs (.wrapf "system error: problem title map is not initialized" .ErrorSystem)
      .ErrorProblemNotFound = false := by
  refine ⟨?_, ?_, rfl, rfl, rfl, rfl, by decide, by decide⟩
  · intro h
    unfold GetProblemByTitle
    rw [h]
    rfl
  · intro h
    unfold GetProblemByID
    rw [h]
    rfl

/-- Witness of C7: a new client, and a client whose title index was populated
and then reset by the shutdown branch. -/
theorem lookup_with_nil_index_is_system_error_witness :
    GetProblemByID questionTransport sampleJson NewAPIClient 1 0 =
      ((Problem.zero,
        some (.wrapf "system error: problem title map is not initialized" .ErrorSystem)),
        NewAPIClient) ∧
    GetProblemByTitle questionTransport sampleJson
        (runClose { sampleClient with problemTitleMap := some [("Two Sum", "two-sum")] })
        "Two Sum" 0 =
      ((Problem.zero,
        some (.wrapf "system error: problem title map is not initialized" .ErrorSystem)),
        runClose { sampleClient with problemTitleMap := some [("Two Sum", "two-sum")] }) :=
  ⟨(lookup_with_nil_index_is_system_error questionTransport sampleJson NewAPIClient
      "Two Sum" 1 0).2.1 (by decide),
   (lookup_with_nil_index_is_system_error questionTransport sampleJson
      (runClose { sampleClient with problemTitleMap := some [("Two Sum", "two-sum")] })
      "Two Sum" 1 0).1 (by decide)⟩

/-- C8 fails on the code at a token that has already expired: the token of
`expiredTokenClient` expired one hour before the time `10 * hour`, and
`refreshCSRFToken` at that time returns nil, calls no transport and keeps the
token.  The guard compares the expiry with `now - 2 * refreshCooldown`. -/
theorem refreshCSRFToken_keeps_expired_token (cli : httpClient) :
    expiredTokenClient.csrf =
        some { Name := "csrftoken", Value := "tok", Expires := 10 * hour - hour } ∧
    refreshCSRFToken cli expiredTokenClient (10 * hour) =
        (.returned none, expiredTokenClient) ∧
    (refreshCSRFToken cli expiredTokenClient (10 * hour)).2.calls = [] := by
  refine ⟨by decide, ?_, ?_⟩ <;> rfl

/-- C9 fails on the code: the client holds a token and nil index maps, the
transport reports a total of `1` and then a list of one problem.
`refreshTitleSlugMaps` makes both requests, decodes the list, and then blocks
on `c.mu.Lock()` with its own read lock still held; both index maps are still
nil. -/
theorem refreshTitleSlugMaps_discards_list :
    lenMap sampleClient.problemIDMap = 0 ∧
    sampleJson.UnmarshalQuestions listData =
      .ok [{ Title := "Two Sum", TitleSlug := "two-sum", ID := "1" }] ∧
    (refreshTitleSlugMaps listTransport sampleJson sampleClient).1 = .blocked ∧
    (refreshTitleSlugMaps listTransport sampleJson sampleClient).2.calls.length = 2 ∧
    (refreshTitleSlugMaps listTransport sampleJson sampleClient).2.muReaders = 1 ∧
    (refreshTitleSlugMaps listTransport sampleJson sampleClient).2.problemIDMap = none ∧
    (refreshTitleSlugMaps listTransport sampleJson sampleClient).2.problemTitleMap = none := by
  refine ⟨by decide, rfl, by decide, by decide, by decide, by decide, by decide⟩

theorem getTotalProblemCount_state (cli : httpClient) (js : Json) (c : Client) :
    ∃ reqs, (getTotalProblemCount cli js c).2 = { c with calls := c.calls ++ reqs } := by
  unfold getTotalProblemCount
  cases newRequest js c totalProblemsQuery
      [("categorySlug", .str ""), ("filters", .emptyStruct)] with
  | error err => exact ⟨[], by simp⟩
  | ok req =>
    simp only
    have hs := doRequest_state cli js c (addRefererHeader req problemListReferer)
    cases hd : doRequest cli js c (addRefererHeader req problemListReferer) with
    | mk r c1 =>
      rw [hd] at hs
      simp only at hs
      subst hs
      refine ⟨[addRefererHeader req problemListReferer], ?_⟩
      cases r with
      | error err => rfl
      | ok data =>
        simp only
        cases js.UnmarshalTotal data <;> rfl

theorem refreshTitleSlugMaps_state (cli : httpClient) (js : Json) (c : Client) :
    ∃ reqs n, (refreshTitleSlugMaps cli js c).2 =
      { c with calls := c.calls ++ reqs, muReaders := n } := by
  unfold refreshTitleSlugMaps
  obtain ⟨reqs1, h1⟩ := getTotalProblemCount_state cli js c
  cases hd : getTotalProblemCount cli js c with
  | mk r c1 =>
    rw [hd] at h1
    simp only at h1
    subst h1
    cases r with
    | error err => exact ⟨reqs1, c.muReaders, rfl⟩
    | ok problemCount =>
      simp only
      split
      · exact ⟨reqs1, c.muReaders + 1 - 1, rfl⟩
      · split
        · exact ⟨reqs1, c.muReaders + 1, rfl⟩
        · rename_i req hreq
          have hs := doRequest_state cli js
            (Client.RLock { c with calls := c.calls ++ reqs1 })
            (addRefererHeader req problemListReferer)
          cases hq : doRequest cli js (Client.RLock { c with calls := c.calls ++ reqs1 })
              (addRefererHeader req problemListReferer) with
          | mk r2 c2 =>
            rw [hq] at hs
            simp only at hs
            subst hs
            refine ⟨reqs1 ++ [addRefererHeader req problemListReferer], c.muReaders + 1, ?_⟩
            cases r2 with
            | error err => simp [Client.RLock]
            | ok data =>
              simp only
              cases js.UnmarshalQuestions data with
              | error err => simp [Client.RLock]
              | ok parsed =>
                simp only
                split <;> simp [Client.RLock]

theorem refreshCSRFToken_error_state (cli : httpClient) (c : Client) (now : Int)
    (err : GoError) (c' : Client)
    (h : refreshCSRFToken cli c now = (.returned (some err), c')) :
    c'.csrf = c.csrf ∧ c'.problemIDMap = c.problemIDMap ∧
      c'.problemTitleMap = c.problemTitleMap ∧ c'.problemCache = c.problemCache := by
  unfold refreshCSRFToken at h
  simp only at h
  split at h
  · simp at h
  · unfold Client.Do at h
    split at h
    · rename_i r c1 e hr
      injection hr with _ hc
      injection h with _ h2
      subst h2
      subst hc
      simp [Client.RLock, Client.RUnlock]
    · rename_i r c1 res hr
      injection hr with _ hc
      subst hc
      split at h
      · injection h with _ h2
        subst h2
        simp [Client.RLock, Client.RUnlock]
      · split at h <;> simp at h

/-- C10: a failed refresh leaves the refreshed state as it was.  If
`refreshCSRFToken` returns an error, the stored token is the one held before
the call; if `refreshTitleSlugMaps` returns an error, both index maps are the
ones held before the call. -/
theorem failed_refresh_keeps_state (cli : httpClient) (js : Json) (c : Client) (now : Int) :
    (∀ err c', refreshCSRFToken cli c now = (.returned (some err), c') → c'.csrf = c.csrf) ∧
    (∀ err c', refreshTitleSlugMaps cli js c = (.returned (some err), c') →
      c'.problemIDMap = c.problemIDMap ∧ c'.problemTitleMap = c.problemTitleMap) := by
  constructor
  · intro err c' h
    exact (refreshCSRFToken_error_state cli c now err c' h).1
  · intro err c' h
    obtain ⟨reqs, n, hs⟩ := refreshTitleSlugMaps_state cli js c
    rw [h] at hs
    simp only at hs
    subst hs
    exact ⟨rfl, rfl⟩

/-- Witness of C10: a transport error and a response without the cookie on
the token refresh of a client holding a long-expired token, and a transport
error on the index refresh of a client with a populated ID index. -/
theorem failed_refresh_keeps_state_witness :
    (refreshCSRFToken failingTransport expiredTokenClient (12 * hour)).2.csrf =
      expiredTokenClient.csrf ∧
    (refreshCSRFToken noCookieTransport expiredTokenClient (12 * hour)).2.csrf =
      expiredTokenClient.csrf ∧
    (refreshTitleSlugMaps failingTransport sampleJson
        { sampleClient with problemIDMap := some [(1, "two-sum")] }).2.problemIDMap =
      some [(1, "two-sum")] :=
  ⟨(failed_refresh_keeps_state failingTransport sampleJson expiredTokenClient (12 * hour)).1
      (.wrapf "http request: test error" (.foreign "test error"))
      (refreshCSRFToken failingTransport expiredTokenClient (12 * hour)).2
      (Prod.ext (by decide) rfl),
   (failed_refresh_keeps_state noCookieTransport sampleJson expiredTokenClient (12 * hour)).1
      (.errorf "no csrftoken cookie found in response")
      (refreshCSRFToken noCookieTransport expiredTokenClient (12 * hour)).2
      (Prod.ext (by decide) rfl),
   ((failed_refresh_keeps_state failingTransport sampleJson
        { sampleClient with problemIDMap := some [(1, "two-sum")] } 0).2
      (.wrapf "get problem count: query: http request: test error"
        (.wrapf "query: http request: test error"
          (.wrapf "http request: test error" (.foreign "test error"))))
      (refreshTitleSlugMaps failingTransport sampleJson
        { sampleClient with problemIDMap := some [(1, "two-sum")] }).2
      (Prod.ext (by decide) rfl)).1⟩

/-! ## Theorems: conversion to the domain model -/

theorem envInfoLoop_error (l : List (String × List String)) (acc : GoMap String String)
    (h : ∃ lang env, (lang, env) ∈ l ∧ env.length < 2) :
    ∃ lang env, (lang, env) ∈ l ∧ env.length < 2 ∧
      envInfoLoop l acc =
        .error (.errorf ("invalid env info for " ++ lang ++ ": " ++ fmtStrings env)) := by
  induction l generalizing acc with
  | nil =>
    obtain ⟨lang, env, hm, _⟩ := h
    simp at hm
  | cons kv rest ih =>
    obtain ⟨k0, e0⟩ := kv
    by_cases hlen : e0.length < 2
    · exact ⟨k0, e0, List.mem_cons_self _ _, hlen, by simp [envInfoLoop, hlen]⟩
    · have hrest : ∃ lang env, (lang, env) ∈ rest ∧ env.length < 2 := by
        obtain ⟨lang, env, hm, hl⟩ := h
        rcases List.mem_cons.mp hm with heq | hin
        · injection heq with h1 h2
          subst h2
          exact absurd hl hlen
        · exact ⟨lang, env, hin, hl⟩
      obtain ⟨lang, env, hm, hl, he⟩ := ih (GoMap.set acc k0 (e0.getD 1 "")) hrest
      refine ⟨lang, env, List.mem_cons_of_mem _ hm, hl, ?_⟩
      simp only [envInfoLoop, hlen, if_false]
      exact he

theorem envInfoLoop_ok (l : List (String × List String)) (acc : GoMap String String)
    (hlen : ∀ lang env, (lang, env) ∈ l → 2 ≤ env.length)
    (hkeys : (GoMap.keys l).Nodup) :
    ∃ m, envInfoLoop l acc = .ok m ∧
      (∀ lang env, (lang, env) ∈ l → GoMap.find m lang = some (env.getD 1 "")) ∧
      (∀ lang, lang ∉ GoMap.keys l → GoMap.find m lang = GoMap.find acc lang) := by
  induction l generalizing acc with
  | nil =>
    exact ⟨acc, rfl, by simp, by simp⟩
  | cons kv rest ih =>
    obtain ⟨k0, e0⟩ := kv
    have h0 : ¬ e0.length < 2 := not_lt.mpr (hlen k0 e0 (List.mem_cons_self _ _))
    have hnd : k0 ∉ GoMap.keys rest ∧ (GoMap.keys rest).Nodup := by
      simpa [GoMap.keys] using hkeys
    obtain ⟨m, hm, hin, hout⟩ := ih (GoMap.set acc k0 (e0.getD 1 ""))
      (fun lang env h => hlen lang env (List.mem_cons_of_mem _ h)) hnd.2
    refine ⟨m, ?_, ?_, ?_⟩
    · simp only [envInfoLoop, h0, if_false]
      exact hm
    · intro lang env hmem
      rcases List.mem_cons.mp hmem with heq | hrest
      · injection heq with h1 h2
        subst h1
        subst h2
        rw [hout lang hnd.1, GoMap.find_set]
        simp
      · exact hin lang env hrest
    · intro lang hnot
      have hne : ¬ k0 = lang := by
        intro h
        apply hnot
        simp [GoMap.keys, h]
      have hnr : lang ∉ GoMap.keys rest := by
        intro h
        apply hnot
        simp only [GoMap.keys, List.map_cons, List.mem_cons]
        exact Or.inr h
      rw [hout lang hnr, GoMap.find_set]
      simp [hne]

theorem codeSnippets_foldl_find (l : List codeSnippet) (acc : GoMap String String)
    (k : String) :
    GoMap.find
        (l.foldl (fun (m : GoMap String String) (c : codeSnippet) =>
          GoMap.set m c.LangSlug c.Code) acc) k =
      match l.reverse.find? (fun c => decide (c.LangSlug = k)) with
      | some c => some c.Code
      | none => GoMap.find acc k := by
  induction l generalizing acc with
  | nil => simp
  | cons c0 rest ih =>
    rw [List.foldl_cons, ih, List.reverse_cons, List.find?_append, GoMap.find_set]
    cases hr : rest.reverse.find? (fun c => decide (c.LangSlug = k)) with
    | some c => simp
    | none =>
      by_cases hk : c0.LangSlug = k <;> simp [List.find?, hk]

theorem params_foldl (l : List parameter) (acc : List Parameter) :
    l.foldl (fun (params : List Parameter) (i : parameter) =>
        params ++ [{ Name := i.Name, «Type» := i.«Type» }]) acc =
      acc ++ l.map (fun i => ({ Name := i.Name, «Type» := i.«Type» } : Parameter)) := by
  induction l generalizing acc with
  | nil => simp
  | cons i rest ih => simp [List.foldl_cons, ih]

theorem second_of_two (env : List String) (h : 2 ≤ env.length) :
    env[1]? = some (env.getD 1 "") := by
  match env, h with
  | _ :: _ :: _, _ => simp

/-- The conversion on the data of the case "normal conversion" of
`TestUnit_ExportProblemFromProblemData` gives the problem the test expects. -/
theorem normal_conversion :
    externalProblemFromProblemData normalData = (normalProblem, none) := by
  decide

/-- C11: `externalProblemFromProblemData` rejects malformed data with the
zero problem and an error.  When the ID string does not parse as an integer
the error is "invalid id string: " followed by the ID.  When the ID parses
and some language of the environment info has fewer than two entries, the
error is "invalid env info for " followed by a language that has fewer than
two entries (then ": " and the entries of that language). -/
theorem externalProblemFromProblemData_rejects (data : problemData) :
    (Atoi data.ID = none →
      externalProblemFromProblemData data =
        (Problem.zero, some (.errorf ("invalid id string: " ++ data.ID)))) ∧
    (∀ n, Atoi data.ID = some n →
      (∃ lang env, (lang, env) ∈ data.EnvInfo ∧ env.length < 2) →
      ∃ lang env, (lang, env) ∈ data.EnvInfo ∧ env.length < 2 ∧
        externalProblemFromProblemData data =
          (Problem.zero,
            some (.errorf ("invalid env info for " ++ lang ++ ": " ++ fmtStrings env)))) := by
  constructor
  · intro h
    unfold externalProblemFromProblemData
    simp only [h]
  · intro n hn hbad
    obtain ⟨lang, env, hm, hl, he⟩ := envInfoLoop_error data.EnvInfo [] hbad
    refine ⟨lang, env, hm, hl, ?_⟩
    unfold externalProblemFromProblemData
    simp only [hn, he]

/-- Witness of C11: the cases "id error" and "env info error" of
`TestUnit_ExportProblemFromProblemData`. -/
theorem externalProblemFromProblemData_rejects_witness :
    externalProblemFromProblemData idErrorData =
      (Problem.zero, some (.errorf "invalid id string: asdfgh")) ∧
    ∃ lang env, (lang, env) ∈ envErrorData.EnvInfo ∧ env.length < 2 ∧
      externalProblemFromProblemData envErrorData =
        (Problem.zero,
          some (.errorf ("invalid env info for " ++ lang ++ ": " ++ fmtStrings env))) :=
  ⟨(externalProblemFromProblemData_rejects idErrorData).1 (by decide),
   (externalProblemFromProblemData_rejects envErrorData).2 1 (by decide)
     ⟨"golang", [], by decide, by decide⟩⟩

/-- C12: when the ID parses as the integer `n` and every language of the
environment info (a map, so its keys are distinct) has at least two entries,
`externalProblemFromProblemData` succeeds.  The problem has ID `n`; title,
slug, flags, difficulty, category and hints are copied; the stats are the
parsed counts; the metadata carries the function name, the return parameter
and the input parameters in the same order; `CodeSnippets` maps a langSlug to
the code of the last snippet with that langSlug and holds no other key;
`EnvInfo` maps each language of the input to the second entry of its list and
holds no other key. -/
theorem externalProblemFromProblemData_converts (data : problemData) (n : Int)
    (hid : Atoi data.ID = some n)
    (henv : ∀ lang env, (lang, env) ∈ data.EnvInfo → 2 ≤ env.length)
    (hkeys : (GoMap.keys data.EnvInfo).Nodup) :
    ∃ p, externalProblemFromProblemData data = (p, none) ∧
      p.ID = n ∧ p.Title = data.Title ∧ p.TitleSlug = data.TitleSlug ∧
      p.IsPaidOnly = data.IsPaidOnly ∧ p.CanSeeQuestion = data.CanSeeQuestion ∧
      p.Difficulty = data.Difficulty ∧ p.CategoryTitle = data.CategoryTitle ∧
      p.Hints = data.Hints ∧
      p.Stats =
        { TotalAccepted := data.Stats.TotalAcceptedRaw
          TotalSubmissions := data.Stats.TotalSubmissionsRaw } ∧
      p.MetaData.FunctionName = data.MetaData.Name ∧
      p.MetaData.ReturnParameter =
        { Name := data.MetaData.Return.Name, «Type» := data.MetaData.Return.«Type» } ∧
      p.MetaData.InputParameters =
        data.MetaData.Params.map
          (fun i => ({ Name := i.Name, «Type» := i.«Type» } : Parameter)) ∧
      (∀ k, GoMap.find p.CodeSnippets k =
        Option.map codeSnippet.Code
          (data.CodeSnippets.reverse.find? (fun c => decide (c.LangSlug = k)))) ∧
      (∀ lang env, (lang, env) ∈ data.EnvInfo →
        ∃ second, env[1]? = some second ∧ GoMap.find p.EnvInfo lang = some second) ∧
      (∀ lang, lang ∉ GoMap.keys data.EnvInfo → GoMap.find p.EnvInfo lang = none) := by
  obtain ⟨m, hm, hin, hout⟩ := envInfoLoop_ok data.EnvInfo [] henv hkeys
  unfold externalProblemFromProblemData
  simp only [hid, hm]
  refine ⟨_, rfl, rfl, rfl, rfl, rfl, rfl, rfl, rfl, rfl, rfl, rfl, rfl, ?_, ?_, ?_, ?_⟩
  · simp only [params_foldl, List.nil_append]
  · intro k
    simp only [codeSnippets_foldl_find]
    cases data.CodeSnippets.reverse.find? (fun c => decide (c.LangSlug = k)) <;> rfl
  · intro lang env hmem
    exact ⟨env.getD 1 "", second_of_two env (henv lang env hmem), hin lang env hmem⟩
  · intro lang hnot
    simp only [hout lang hnot]
    rfl

/-- Witness of C12: the case "normal conversion" of
`TestUnit_ExportProblemFromProblemData`. -/
theorem externalProblemFromProblemData_converts_witness :
    ∃ p, externalProblemFromProblemData normalData = (p, none) ∧
      p.ID = 1 ∧ p.Title = "Test Problem" ∧
      p.MetaData.InputParameters = [{ Name := "input", «Type» := "integer[]" }] ∧
      GoMap.find p.CodeSnippets "golang" = some "<golang code>" ∧
      GoMap.find p.EnvInfo "golang" = some "<golang env info>" := by
  obtain ⟨p, hp, h1, h2, _, _, _, _, _, _, _, _, _, h3, h4, h5, _⟩ :=
    externalProblemFromProblemData_converts normalData 1 (by decide)
      (by
        intro lang env h
        simp only [normalData, List.mem_singleton, Prod.mk.injEq] at h
        rw [h.2]
        decide)
      (by decide)
  refine ⟨p, hp, h1, h2, h3, ?_, ?_⟩
  · rw [h4]
    decide
  · obtain ⟨second, hs, hf⟩ := h5 "golang" ["Go", "<golang env info>"] (by decide)
    rw [hf, ← hs]
    decide

end GraphqlApiService
